import Mathlib

/-!
Shallow embedding of the cw_parser crate (src/lib.rs) together with models
of its three recognizer modules, and proofs of the specification claims.

The crate declares three submodules node, python and dotnet whose source
files are not part of src/; those recognizers are modelled from the
specification (each such definition says so in its doc comment).  Every
other definition is translated from src/lib.rs.
-/

namespace CwParser

/-- Structured value model of serde_json::Value.  Numbers are modelled as
integers; the payloads this library handles carry integral numbers and
floating point is outside the embedding. -/
inductive Value where
  | null : Value
  | bool (b : Bool) : Value
  | num (n : Int) : Value
  | str (s : String) : Value
  | arr (elems : List Value) : Value
  | obj (members : List (String × Value)) : Value

/-- Raw CloudWatch record, from the struct RawCloudWatchLog in src/lib.rs. -/
structure RawCloudWatchLog where
  time : String
  type : String
  record : Value

/-- Log severity, from the enum LogLevel in src/lib.rs. -/
inductive LogLevel where
  | Info
  | Warn
  | Error
deriving DecidableEq

/-- Errors of the library.  Each constructor embeds one Error::msg call
site of src/lib.rs and carries the data its format string interpolates:
levelParse is "Unable to parse {} as LogLevel", expectedString is
"Expected String {}", unableToParse is "Unable to parse {:?}" applied to
the whole record (so the error identifies the original payload). -/
inductive CwError where
  | levelParse (token : String)
  | expectedString (record : Value)
  | unableToParse (log : RawCloudWatchLog)

/-- Structured log record, from the struct StructuredLog in src/lib.rs. -/
structure StructuredLog where
  timestamp : Option String
  guid : Option String
  level : Option LogLevel
  data : Value

/-- Parse result, from the enum Log in src/lib.rs. -/
inductive Log where
  | Unformatted (log : StructuredLog)
  | Formatted (value : Value)

/-- Level token parsing, from TryFrom String for LogLevel in src/lib.rs:
the exact tokens "INFO", "WARN", "ERROR" succeed and any other token is an
error carrying the token. -/
def LogLevel.tryFrom (level : String) : Except CwError LogLevel :=
  if level = "INFO" then .ok .Info
  else if level = "WARN" then .ok .Warn
  else if level = "ERROR" then .ok .Error
  else .error (.levelParse level)

/-- Serialization of LogLevel, from the serde rename attributes in
src/lib.rs: the literal uppercase tokens. -/
def LogLevel.serialize : LogLevel → String
  | .Info => "INFO"
  | .Warn => "WARN"
  | .Error => "ERROR"

/-- Whitespace predicate used by the recognizer shapes: space, tab, line
feed, carriage return. -/
def isWs (c : Char) : Bool :=
  c = ' ' || c = '\t' || c = '\n' || c = '\r'

/-- Drop leading whitespace. -/
def skipWs (cs : List Char) : List Char :=
  cs.dropWhile isWs

/-- Split a list at the first occurrence of a separator: the part before
the separator and the remainder after it, or none when the separator does
not occur. -/
def splitFirst (sep : Char) : List Char → Option (List Char × List Char)
  | [] => none
  | c :: cs =>
    if c = sep then some ([], cs)
    else
      match splitFirst sep cs with
      | some p => some (c :: p.1, p.2)
      | none => none

/-- Modelled from the spec: core of the TabDelimited recognizer (module
node, whose source file is not part of src/).  The payload splits on the
tab character into four segments timestamp, correlation id, level token
and message, the message being the whole remainder after the third tab;
fewer than four segments, or a level token that fails LevelCode parsing,
makes the recognizer decline. -/
def node.parseCore (cs : List Char) : Option Log :=
  match splitFirst '\t' cs with
  | none => none
  | some (ts, r1) =>
    match splitFirst '\t' r1 with
    | none => none
    | some (guid, r2) =>
      match splitFirst '\t' r2 with
      | none => none
      | some (tok, msg) =>
        match LogLevel.tryFrom (String.mk tok) with
        | .ok lvl =>
          some (.Unformatted
            ⟨some (String.mk ts), some (String.mk guid), some lvl,
              .str (String.mk msg)⟩)
        | .error _ => none

/-- Modelled from the spec: the TabDelimited recognizer declines when the
payload is not text. -/
def node.parse (log : RawCloudWatchLog) : Option Log :=
  match log.record with
  | .str s => node.parseCore s.data
  | _ => none

/-- Modelled from the spec: core of the BracketedLevel recognizer (module
python, whose source file is not part of src/).  The payload begins with a
level token enclosed in square brackets, followed by a tab, then a
nonempty timestamp running to the first whitespace character, then
one-or-more whitespace characters, then the correlation id running to the
next tab, then a tab, then the message (remainder).  An absent or
malformed bracket, a level token failing LevelCode parsing, or a missing
separator makes the recognizer decline. -/
def python.parseCore (cs : List Char) : Option Log :=
  match cs with
  | [] => none
  | c :: rest =>
    if c = '[' then
      match splitFirst ']' rest with
      | none => none
      | some (tok, rest1) =>
        match rest1 with
        | [] => none
        | c1 :: rest2 =>
          if c1 = '\t' then
            match LogLevel.tryFrom (String.mk tok) with
            | .error _ => none
            | .ok lvl =>
              let ts := rest2.takeWhile (fun c => !(isWs c))
              match rest2.dropWhile (fun c => !(isWs c)) with
              | [] => none
              | w :: rest3 =>
                if ts.isEmpty then none
                else
                  let rest4 := (w :: rest3).dropWhile isWs
                  let guid := rest4.takeWhile (fun c => c != '\t')
                  match rest4.dropWhile (fun c => c != '\t') with
                  | [] => none
                  | c2 :: msg =>
                    if c2 = '\t' then
                      some (.Unformatted
                        ⟨some (String.mk ts), some (String.mk guid), some lvl,
                          .str (String.mk msg)⟩)
                    else none
          else none
    else none

/-- Modelled from the spec: the BracketedLevel recognizer declines when
the payload is not text. -/
def python.parse (log : RawCloudWatchLog) : Option Log :=
  match log.record with
  | .str s => python.parseCore s.data
  | _ => none

/-- Decodes the short escapes of the JSON string grammar (unicode escapes
are not modelled). -/
def escChar (c : Char) : Option Char :=
  if c = '"' then some '"'
  else if c = '\\' then some '\\'
  else if c = '/' then some '/'
  else if c = 'n' then some '\n'
  else if c = 't' then some '\t'
  else if c = 'r' then some '\r'
  else if c = 'b' then some (Char.ofNat 8)
  else if c = 'f' then some (Char.ofNat 12)
  else none

/-- Body of a JSON string literal after the opening quote: the decoded
characters and the remainder after the closing quote. -/
def parseStringBody : List Char → Option (List Char × List Char)
  | [] => none
  | c :: cs =>
    if c = '"' then some ([], cs)
    else if c = '\\' then
      match cs with
      | [] => none
      | e :: cs2 =>
        match escChar e with
        | none => none
        | some d =>
          match parseStringBody cs2 with
          | none => none
          | some p => some (d :: p.1, p.2)
    else
      match parseStringBody cs with
      | none => none
      | some p => some (c :: p.1, p.2)

/-- Decimal digit predicate. -/
def isDigitChar (c : Char) : Bool :=
  '0' ≤ c && c ≤ '9'

/-- Accumulates a run of decimal digits. -/
def parseDigits (cs : List Char) (acc : Nat) : Nat × List Char :=
  match cs with
  | c :: rest =>
    if isDigitChar c then parseDigits rest (acc * 10 + (c.toNat - '0'.toNat))
    else (acc, cs)
  | [] => (acc, [])

/-- JSON number parsing, restricted to possibly negative integers. -/
def parseNumber (cs : List Char) : Option (Int × List Char) :=
  match cs with
  | '-' :: rest =>
    match rest with
    | c :: _ =>
      if isDigitChar c then
        let p := parseDigits rest 0
        some (-(p.1 : Int), p.2)
      else none
    | [] => none
  | c :: _ =>
    if isDigitChar c then
      let p := parseDigits cs 0
      some ((p.1 : Int), p.2)
    else none
  | [] => none

/-- Matches an expected literal character sequence. -/
def expectChars (lit : List Char) (cs : List Char) : Option (List Char) :=
  match lit, cs with
  | [], _ => some cs
  | l :: ls, c :: rest => if c = l then expectChars ls rest else none
  | _ :: _, [] => none

mutual

/-- Modelled from the spec: recursive-descent parser for the structured
data grammar (object, array or scalar) used by the JsonPassthrough
recognizer; fuel bounds the recursion depth. -/
def parseValue : Nat → List Char → Option (Value × List Char)
  | 0, _ => none
  | fuel + 1, cs =>
    match skipWs cs with
    | [] => none
    | c :: rest =>
      if c = 'n' then
        match expectChars (String.toList "ull") rest with
        | some rem => some (.null, rem)
        | none => none
      else if c = 't' then
        match expectChars (String.toList "rue") rest with
        | some rem => some (.bool true, rem)
        | none => none
      else if c = 'f' then
        match expectChars (String.toList "alse") rest with
        | some rem => some (.bool false, rem)
        | none => none
      else if c = '"' then
        match parseStringBody rest with
        | some p => some (.str (String.mk p.1), p.2)
        | none => none
      else if c = '[' then
        match skipWs rest with
        | ']' :: rem => some (.arr [], rem)
        | _ =>
          match parseElems fuel rest with
          | some p => some (.arr p.1, p.2)
          | none => none
      else if c = '\x7b' then
        match skipWs rest with
        | '\x7d' :: rem => some (.obj [], rem)
        | _ =>
          match parseMembers fuel rest with
          | some p => some (.obj p.1, p.2)
          | none => none
      else
        match parseNumber (c :: rest) with
        | some p => some (.num p.1, p.2)
        | none => none

/-- Comma-separated JSON array elements up to the closing bracket. -/
def parseElems : Nat → List Char → Option (List Value × List Char)
  | 0, _ => none
  | fuel + 1, cs =>
    match parseValue fuel cs with
    | none => none
    | some (v, rem) =>
      match skipWs rem with
      | ',' :: rem2 =>
        match parseElems fuel rem2 with
        | none => none
        | some p => some (v :: p.1, p.2)
      | ']' :: rem2 => some ([v], rem2)
      | _ => none

/-- Comma-separated JSON object members up to the closing brace. -/
def parseMembers : Nat → List Char → Option (List (String × Value) × List Char)
  | 0, _ => none
  | fuel + 1, cs =>
    match skipWs cs with
    | '"' :: rest =>
      match parseStringBody rest with
      | none => none
      | some (key, rem) =>
        match skipWs rem with
        | ':' :: rem2 =>
          match parseValue fuel rem2 with
          | none => none
          | some (v, rem3) =>
            match skipWs rem3 with
            | ',' :: rem4 =>
              match parseMembers fuel rem4 with
              | none => none
              | some p => some ((String.mk key, v) :: p.1, p.2)
            | '\x7d' :: rem4 => some ([(String.mk key, v)], rem4)
            | _ => none
        | _ => none
    | _ => none

end

/-- Modelled from the spec: whole-payload parse for the JsonPassthrough
recognizer: the payload parses as a structured-data document with only
trailing whitespace left over. -/
def jsonParse (s : String) : Option Value :=
  match parseValue (2 * s.data.length + 2) s.data with
  | some (v, rest) => if skipWs rest = [] then some v else none
  | none => none

/-- Modelled from the spec: the JsonPassthrough recognizer (module dotnet,
whose source file is not part of src/): a text payload that parses as
valid structured data is returned unmodified as Formatted; otherwise the
recognizer declines. -/
def dotnet.parse (log : RawCloudWatchLog) : Option Log :=
  match log.record with
  | .str s =>
    match jsonParse s with
    | some v => some (.Formatted v)
    | none => none
  | _ => none

/-- Dispatcher, from try_parse_cloudwatch_log in src/lib.rs: tries the
recognizers in the order node (TabDelimited), python (BracketedLevel),
dotnet (JsonPassthrough), returns the first match, and errors with the
whole record when all decline. -/
def try_parse_cloudwatch_log (log : RawCloudWatchLog) : Except CwError Log :=
  match node.parse log with
  | some dto => .ok dto
  | none =>
    match python.parse log with
    | some dto => .ok dto
    | none =>
      match dotnet.parse log with
      | some dto => .ok dto
      | none => .error (.unableToParse log)

/-- Per-record step of parse in src/lib.rs: a text payload goes to the
dispatcher, any other payload is an Expected String error. -/
def processRecord (log : RawCloudWatchLog) : Except CwError Log :=
  match log.record with
  | .str _ => try_parse_cloudwatch_log log
  | _ => .error (.expectedString log.record)

/-- Batch parse, from parse in src/lib.rs: keep the records whose type is
"function", process each, and flatten the errors away. -/
def parse (logs : List RawCloudWatchLog) : List Log :=
  ((logs.filter (fun log => log.type == "function")).map processRecord).filterMap
    Except.toOption

/-! Helper lemmas about the splitting primitives. -/

theorem splitFirst_of_not_mem {sep : Char} {cs : List Char} (h : sep ∉ cs) :
    splitFirst sep cs = none := by
  induction cs with
  | nil => rfl
  | cons c cs ih =>
    simp only [List.mem_cons, not_or] at h
    unfold splitFirst
    rw [if_neg (fun hc => h.1 hc.symm), ih h.2]

theorem splitFirst_append_cons {sep : Char} {a : List Char} (b : List Char)
    (h : sep ∉ a) : splitFirst sep (a ++ sep :: b) = some (a, b) := by
  induction a with
  | nil => simp [splitFirst]
  | cons c a ih =>
    simp only [List.mem_cons, not_or] at h
    simp only [List.cons_append]
    unfold splitFirst
    rw [if_neg (fun hc => h.1 hc.symm), ih h.2]

theorem splitFirst_some {sep : Char} {cs a b : List Char}
    (h : splitFirst sep cs = some (a, b)) : cs = a ++ sep :: b ∧ sep ∉ a := by
  induction cs generalizing a b with
  | nil => simp [splitFirst] at h
  | cons c cs ih =>
    unfold splitFirst at h
    by_cases hc : c = sep
    · rw [if_pos hc] at h
      obtain ⟨ha, hb⟩ := Prod.mk.injEq .. ▸ Option.some.inj h
      subst hc; subst ha; subst hb; simp
    · rw [if_neg hc] at h
      cases hsp : splitFirst sep cs with
      | none => rw [hsp] at h; exact absurd h (by simp)
      | some p =>
        rw [hsp] at h
        obtain ⟨ha, hb⟩ := Prod.mk.injEq .. ▸ Option.some.inj h
        obtain ⟨hcs, hmem⟩ := ih (a := p.1) (b := p.2) (by rw [hsp])
        subst hb
        constructor
        · rw [← ha, hcs]; simp
        · rw [← ha]
          simp only [List.mem_cons, not_or]
          exact ⟨fun hq => hc hq.symm, hmem⟩

theorem splitFirst_count {sep : Char} {cs a b : List Char}
    (h : splitFirst sep cs = some (a, b)) :
    cs.count sep = b.count sep + 1 := by
  obtain ⟨hcs, hmem⟩ := splitFirst_some h
  subst hcs
  rw [List.count_append, List.count_cons_self, List.count_eq_zero.mpr hmem]
  omega

theorem takeWhile_append_cons {p : Char → Bool} {a : List Char} {c : Char}
    (b : List Char) (ha : ∀ x ∈ a, p x = true) (hc : p c = false) :
    (a ++ c :: b).takeWhile p = a := by
  induction a with
  | nil => simp [List.takeWhile_cons, hc]
  | cons x a ih =>
    have hx := ha x (by simp)
    simp only [List.cons_append, List.takeWhile_cons, hx, if_true]
    rw [ih (fun y hy => ha y (by simp [hy]))]

theorem dropWhile_append_cons {p : Char → Bool} {a : List Char} {c : Char}
    (b : List Char) (ha : ∀ x ∈ a, p x = true) (hc : p c = false) :
    (a ++ c :: b).dropWhile p = c :: b := by
  induction a with
  | nil => simp [List.dropWhile_cons, hc]
  | cons x a ih =>
    have hx := ha x (by simp)
    simp only [List.cons_append, List.dropWhile_cons, hx, if_true]
    exact ih (fun y hy => ha y (by simp [hy]))

theorem skipWs_cons_of_not {c : Char} (cs : List Char) (h : isWs c = false) :
    skipWs (c :: cs) = c :: cs := by
  simp [skipWs, List.dropWhile_cons, h]

/-! Helper lemmas about level-token parsing. -/

theorem tryFrom_ok {s : String} {l : LogLevel}
    (h : LogLevel.tryFrom s = .ok l) : s = LogLevel.serialize l := by
  unfold LogLevel.tryFrom at h
  by_cases h1 : s = "INFO"
  · rw [if_pos h1] at h
    cases Except.ok.inj h
    exact h1
  · rw [if_neg h1] at h
    by_cases h2 : s = "WARN"
    · rw [if_pos h2] at h
      cases Except.ok.inj h
      exact h2
    · rw [if_neg h2] at h
      by_cases h3 : s = "ERROR"
      · rw [if_pos h3] at h
        cases Except.ok.inj h
        exact h3
      · rw [if_neg h3] at h
        exact absurd h (by simp)

theorem tryFrom_serialize (l : LogLevel) :
    LogLevel.tryFrom (LogLevel.serialize l) = .ok l := by
  cases l <;> rfl

theorem tryFrom_ok_no_tab {tok : List Char} {l : LogLevel}
    (h : LogLevel.tryFrom (String.mk tok) = .ok l) : '\t' ∉ tok := by
  have := tryFrom_ok h
  have htok : tok = (LogLevel.serialize l).data := congrArg String.data this
  subst htok
  cases l <;> decide

theorem tryFrom_ok_no_bracket {tok : List Char} {l : LogLevel}
    (h : LogLevel.tryFrom (String.mk tok) = .ok l) : ']' ∉ tok := by
  have := tryFrom_ok h
  have htok : tok = (LogLevel.serialize l).data := congrArg String.data this
  subst htok
  cases l <;> decide

/-! Shape lemmas for the recognizers. -/

theorem node_parseCore_shape (ts guid tok msg : List Char) (lvl : LogLevel)
    (hts : '\t' ∉ ts) (hguid : '\t' ∉ guid)
    (hlvl : LogLevel.tryFrom (String.mk tok) = .ok lvl) :
    node.parseCore (ts ++ '\t' :: guid ++ '\t' :: tok ++ '\t' :: msg) =
      some (.Unformatted
        ⟨some (String.mk ts), some (String.mk guid), some lvl,
          .str (String.mk msg)⟩) := by
  have htok := tryFrom_ok_no_tab hlvl
  simp only [node.parseCore, List.cons_append, List.append_assoc,
    splitFirst_append_cons _ hts, splitFirst_append_cons _ hguid,
    splitFirst_append_cons _ htok, hlvl]

theorem node_parseCore_short (s : List Char) (h : s.count '\t' < 3) :
    node.parseCore s = none := by
  unfold node.parseCore
  cases h1 : splitFirst '\t' s with
  | none => rfl
  | some p =>
    obtain ⟨ts, r1⟩ := p
    have hc1 := splitFirst_count h1
    cases h2 : splitFirst '\t' r1 with
    | none => simp [h2]
    | some p2 =>
      obtain ⟨guid, r2⟩ := p2
      have hc2 := splitFirst_count h2
      cases h3 : splitFirst '\t' r2 with
      | none => simp [h2, h3]
      | some p3 =>
        have hc3 := splitFirst_count h3
        omega

theorem node_parseCore_badlevel (ts guid tok msg : List Char) (e : CwError)
    (hts : '\t' ∉ ts) (hguid : '\t' ∉ guid) (htok : '\t' ∉ tok)
    (herr : LogLevel.tryFrom (String.mk tok) = .error e) :
    node.parseCore (ts ++ '\t' :: guid ++ '\t' :: tok ++ '\t' :: msg) = none := by
  simp only [node.parseCore, List.cons_append, List.append_assoc,
    splitFirst_append_cons _ hts, splitFirst_append_cons _ hguid,
    splitFirst_append_cons _ htok, herr]

theorem python_parseCore_shape (tok ts ws guid msg : List Char) (lvl : LogLevel)
    (hlvl : LogLevel.tryFrom (String.mk tok) = .ok lvl)
    (htsne : ts ≠ []) (hts : ∀ c ∈ ts, isWs c = false)
    (hwsne : ws ≠ []) (hws : ∀ c ∈ ws, isWs c = true)
    (hgne : guid ≠ []) (hghd : ∀ c, guid.head? = some c → isWs c = false)
    (hgtab : '\t' ∉ guid) :
    python.parseCore ('[' :: tok ++ ']' :: '\t' :: ts ++ ws ++ guid ++ '\t' :: msg) =
      some (.Unformatted
        ⟨some (String.mk ts), some (String.mk guid), some lvl,
          .str (String.mk msg)⟩) := by
  obtain ⟨w, ws, rfl⟩ : ∃ w ws2, ws = w :: ws2 := by
    cases ws with
    | nil => exact absurd rfl hwsne
    | cons w ws => exact ⟨w, ws, rfl⟩
  obtain ⟨g, guid, rfl⟩ : ∃ g guid2, guid = g :: guid2 := by
    cases guid with
    | nil => exact absurd rfl hgne
    | cons g guid => exact ⟨g, guid, rfl⟩
  obtain ⟨t0, ts, rfl⟩ : ∃ t0 ts2, ts = t0 :: ts2 := by
    cases ts with
    | nil => exact absurd rfl htsne
    | cons t0 ts => exact ⟨t0, ts, rfl⟩
  have htake1 :
      List.takeWhile (fun c => !(isWs c))
        (t0 :: (ts ++ w :: (ws ++ g :: (guid ++ '\t' :: msg)))) = t0 :: ts :=
    takeWhile_append_cons (a := t0 :: ts) (c := w) _
      (fun x hx => by simp [hts x hx]) (by simp [hws w (by simp)])
  have hdrop1 :
      List.dropWhile (fun c => !(isWs c))
        (t0 :: (ts ++ w :: (ws ++ g :: (guid ++ '\t' :: msg)))) =
        w :: (ws ++ g :: (guid ++ '\t' :: msg)) :=
    dropWhile_append_cons (a := t0 :: ts) (c := w) _
      (fun x hx => by simp [hts x hx]) (by simp [hws w (by simp)])
  have hdrop2 :
      List.dropWhile isWs (w :: (ws ++ g :: (guid ++ '\t' :: msg))) =
        g :: (guid ++ '\t' :: msg) :=
    dropWhile_append_cons (a := w :: ws) (c := g) _
      (fun x hx => hws x (by simpa using hx)) (hghd g rfl)
  have htake3 :
      List.takeWhile (fun c => c != '\t') (g :: (guid ++ '\t' :: msg)) =
        g :: guid :=
    takeWhile_append_cons (a := g :: guid) (c := '\t') _
      (fun x hx => by
        have hx2 : x ≠ '\t' := fun hc => hgtab (hc ▸ hx)
        simp [hx2]) (by simp)
  have hdrop3 :
      List.dropWhile (fun c => c != '\t') (g :: (guid ++ '\t' :: msg)) =
        '\t' :: msg :=
    dropWhile_append_cons (a := g :: guid) (c := '\t') _
      (fun x hx => by
        have hx2 : x ≠ '\t' := fun hc => hgtab (hc ▸ hx)
        simp [hx2]) (by simp)
  simp only [python.parseCore, List.cons_append, List.append_assoc,
    splitFirst_append_cons _ (tryFrom_ok_no_bracket hlvl), hlvl]
  simp [htake1, hdrop1, hdrop2, htake3, hdrop3]

/-! Lemmas showing that a payload beginning with a bracketed level token is
never valid structured data: after the opening bracket the parser meets the
first letter of the level token, which starts no value of the grammar. -/

theorem parseValue_head_I (f : Nat) (rest : List Char) :
    parseValue f ('I' :: rest) = none := by
  cases f with
  | zero => rfl
  | succ f => rfl

theorem parseValue_head_W (f : Nat) (rest : List Char) :
    parseValue f ('W' :: rest) = none := by
  cases f with
  | zero => rfl
  | succ f => rfl

theorem parseValue_head_E (f : Nat) (rest : List Char) :
    parseValue f ('E' :: rest) = none := by
  cases f with
  | zero => rfl
  | succ f => rfl

theorem parseElems_head_I (f : Nat) (rest : List Char) :
    parseElems f ('I' :: rest) = none := by
  cases f with
  | zero => rfl
  | succ f => simp [parseElems, parseValue_head_I]

theorem parseElems_head_W (f : Nat) (rest : List Char) :
    parseElems f ('W' :: rest) = none := by
  cases f with
  | zero => rfl
  | succ f => simp [parseElems, parseValue_head_W]

theorem parseElems_head_E (f : Nat) (rest : List Char) :
    parseElems f ('E' :: rest) = none := by
  cases f with
  | zero => rfl
  | succ f => simp [parseElems, parseValue_head_E]

theorem parseValue_bracket_I (f : Nat) (rest : List Char) :
    parseValue f ('[' :: 'I' :: rest) = none := by
  cases f with
  | zero => rfl
  | succ f =>
    change (match parseElems f ('I' :: rest) with
      | some p => some (Value.arr p.1, p.2)
      | none => none) = none
    rw [parseElems_head_I]

theorem parseValue_bracket_W (f : Nat) (rest : List Char) :
    parseValue f ('[' :: 'W' :: rest) = none := by
  cases f with
  | zero => rfl
  | succ f =>
    change (match parseElems f ('W' :: rest) with
      | some p => some (Value.arr p.1, p.2)
      | none => none) = none
    rw [parseElems_head_W]

theorem parseValue_bracket_E (f : Nat) (rest : List Char) :
    parseValue f ('[' :: 'E' :: rest) = none := by
  cases f with
  | zero => rfl
  | succ f =>
    change (match parseElems f ('E' :: rest) with
      | some p => some (Value.arr p.1, p.2)
      | none => none) = none
    rw [parseElems_head_E]

theorem python_parseCore_some_inv {cs : List Char} {r : Log}
    (h : python.parseCore cs = some r) :
    ∃ tok rest lvl, cs = '[' :: tok ++ ']' :: rest ∧
      LogLevel.tryFrom (String.mk tok) = .ok lvl := by
  cases cs with
  | nil => exact absurd h (by simp [python.parseCore])
  | cons c rest0 =>
    simp only [python.parseCore] at h
    by_cases hc : c = '['
    · rw [if_pos hc] at h
      cases hsp : splitFirst ']' rest0 with
      | none => rw [hsp] at h; exact absurd h (by simp)
      | some p =>
        obtain ⟨tok, rest1⟩ := p
        rw [hsp] at h
        cases hlv : LogLevel.tryFrom (String.mk tok) with
        | ok lvl =>
          refine ⟨tok, rest1, lvl, ?_, hlv⟩
          rw [hc, (splitFirst_some hsp).1]
          exact rfl
        | error e =>
          exfalso
          cases rest1 with
          | nil => simp at h
          | cons c1 rest2 => simp [hlv] at h
    · rw [if_neg hc] at h
      exact absurd h (by simp)

/-! Characterization of the batch stage. -/

theorem parse_eq_filterMap (logs : List RawCloudWatchLog) :
    parse logs = logs.filterMap (fun log =>
      if log.type = "function" then (processRecord log).toOption else none) := by
  induction logs with
  | nil => rfl
  | cons log logs ih =>
    unfold parse at ih ⊢
    by_cases h : log.type = "function"
    · rw [List.filter_cons_of_pos (by simp [h]), List.map_cons,
        List.filterMap_cons, List.filterMap_cons, if_pos h, ih]
    · rw [List.filter_cons_of_neg (by simp [h]), List.filterMap_cons,
        if_neg h, ih]

theorem parse_middle_none (pre post : List RawCloudWatchLog)
    (log : RawCloudWatchLog)
    (h : (if log.type = "function" then (processRecord log).toOption else none)
        = none) :
    parse (pre ++ log :: post) = parse (pre ++ post) := by
  rw [parse_eq_filterMap, parse_eq_filterMap, List.filterMap_append,
    List.filterMap_append, List.filterMap_cons, h]

/-! Claim theorems. -/

/-- C1: for every raw record whose payload is text, the dispatcher tries
the recognizers in the fixed priority order TabDelimited (node), then
BracketedLevel (python), then JsonPassthrough (dotnet), and returns the
result of the first recognizer that does not decline; if every recognizer
declines it fails with the NoFormatMatched error carrying the original
record, payload included. -/
theorem c1_dispatch_order (log : RawCloudWatchLog)
    (_htext : ∃ s, log.record = Value.str s) :
    (∀ r, node.parse log = some r →
      try_parse_cloudwatch_log log = .ok r) ∧
    (node.parse log = none →
      ∀ r, python.parse log = some r →
        try_parse_cloudwatch_log log = .ok r) ∧
    (node.parse log = none → python.parse log = none →
      ∀ r, dotnet.parse log = some r →
        try_parse_cloudwatch_log log = .ok r) ∧
    (node.parse log = none → python.parse log = none →
      dotnet.parse log = none →
      try_parse_cloudwatch_log log = .error (.unableToParse log)) := by
  refine ⟨?_, ?_, ?_, ?_⟩
  · intro r h
    simp [try_parse_cloudwatch_log, h]
  · intro h1 r h2
    simp [try_parse_cloudwatch_log, h1, h2]
  · intro h1 h2 r h3
    simp [try_parse_cloudwatch_log, h1, h2, h3]
  · intro h1 h2 h3
    simp [try_parse_cloudwatch_log, h1, h2, h3]

/-- Witness for C1 at the record with payload "Bad log", on which every
recognizer declines. -/
theorem c1_dispatch_order_witness :
    try_parse_cloudwatch_log ⟨"", "function", .str "Bad log"⟩ =
      .error (.unableToParse ⟨"", "function", .str "Bad log"⟩) :=
  (c1_dispatch_order ⟨"", "function", .str "Bad log"⟩ ⟨"Bad log", rfl⟩).2.2.2
    rfl rfl rfl

/-- C2: a text payload that splits on the tab character into at least four
segments whose third segment is a valid level token yields Unformatted
with timestamp, correlation id, level and data exactly as split, the data
being the entire remainder after the third tab (it may contain embedded
tabs and newlines); with fewer than four segments (fewer than three tabs)
or a level token failing LevelCode parsing, the TabDelimited recognizer
declines instead of raising an error. -/
theorem c2_tab_delimited :
    (∀ (time typ : String) (ts guid tok msg : List Char) (lvl : LogLevel),
      '\t' ∉ ts → '\t' ∉ guid →
      LogLevel.tryFrom (String.mk tok) = .ok lvl →
      node.parse ⟨time, typ,
        .str (String.mk (ts ++ '\t' :: guid ++ '\t' :: tok ++ '\t' :: msg))⟩ =
        some (.Unformatted
          ⟨some (String.mk ts), some (String.mk guid), some lvl,
            .str (String.mk msg)⟩)) ∧
    (∀ (time typ : String) (s : String), s.data.count '\t' < 3 →
      node.parse ⟨time, typ, .str s⟩ = none) ∧
    (∀ (time typ : String) (ts guid tok msg : List Char) (e : CwError),
      '\t' ∉ ts → '\t' ∉ guid → '\t' ∉ tok →
      LogLevel.tryFrom (String.mk tok) = .error e →
      node.parse ⟨time, typ,
        .str (String.mk (ts ++ '\t' :: guid ++ '\t' :: tok ++ '\t' :: msg))⟩ =
        none) := by
  refine ⟨?_, ?_, ?_⟩
  · intro time typ ts guid tok msg lvl h1 h2 h3
    exact node_parseCore_shape ts guid tok msg lvl h1 h2 h3
  · intro time typ s h
    exact node_parseCore_short s.data h
  · intro time typ ts guid tok msg e h1 h2 h3 h4
    exact node_parseCore_badlevel ts guid tok msg e h1 h2 h3 h4

/-- Witness for C2 at the repository's tab-delimited test line. -/
theorem c2_tab_delimited_witness :
    node.parse ⟨"", "function",
      .str (String.mk ("2020-11-18T23:52:30.128Z".data ++ '\t' ::
        "6e48723a-1596-4313-a9af-e4da9214d637".data ++ '\t' ::
        "INFO".data ++ '\t' :: "Hello World\n".data))⟩ =
      some (.Unformatted
        ⟨some (String.mk "2020-11-18T23:52:30.128Z".data),
          some (String.mk "6e48723a-1596-4313-a9af-e4da9214d637".data),
          some .Info, .str (String.mk "Hello World\n".data)⟩) :=
  c2_tab_delimited.1 "" "function" _ _ _ _ .Info (by decide) (by decide) rfl

/-- C3: the LevelCode parser returns Info, Warn, Error exactly for the
tokens "INFO", "WARN", "ERROR" (case-sensitive), fails on every other
token with a parse error carrying the offending token, and the
enumeration serializes back to those same literal uppercase tokens. -/
theorem c3_level_parse :
    LogLevel.tryFrom "INFO" = .ok .Info ∧
    LogLevel.tryFrom "WARN" = .ok .Warn ∧
    LogLevel.tryFrom "ERROR" = .ok .Error ∧
    (∀ t : String, t ≠ "INFO" → t ≠ "WARN" → t ≠ "ERROR" →
      LogLevel.tryFrom t = .error (.levelParse t)) ∧
    LogLevel.serialize .Info = "INFO" ∧
    LogLevel.serialize .Warn = "WARN" ∧
    LogLevel.serialize .Error = "ERROR" := by
  refine ⟨rfl, rfl, rfl, ?_, rfl, rfl, rfl⟩
  intro t h1 h2 h3
  simp [LogLevel.tryFrom, h1, h2, h3]

/-- Witness for C3 at the invalid token "DEBUG". -/
theorem c3_level_parse_witness :
    LogLevel.tryFrom "DEBUG" = .error (.levelParse "DEBUG") :=
  c3_level_parse.2.2.2.1 "DEBUG" (by decide) (by decide) (by decide)

/-- C4: per-record errors and exclusions are swallowed at the batch level;
a record whose processing fails (non-text payload or no format matched)
or that is excluded produces no output entry, and the rest of the batch
is unaffected.  The batch itself cannot fail: parse is total by type. -/
theorem c4_errors_swallowed :
    ∀ (pre post : List RawCloudWatchLog) (log : RawCloudWatchLog),
      (log.type ≠ "function" ∨ ∃ e, processRecord log = .error e) →
      parse (pre ++ log :: post) = parse (pre ++ post) := by
  intro pre post log h
  apply parse_middle_none
  rcases h with h | ⟨e, he⟩
  · simp [h]
  · by_cases ht : log.type = "function" <;> simp [ht, he, Except.toOption]

/-- Witness for C4: the "Bad log" record from the repository's failing
test is dropped from the batch output. -/
theorem c4_errors_swallowed_witness :
    parse [⟨"", "function", .str "Bad log"⟩] = [] :=
  c4_errors_swallowed [] [] ⟨"", "function", .str "Bad log"⟩
    (.inr ⟨.unableToParse ⟨"", "function", .str "Bad log"⟩, rfl⟩)

/-- C5: a text payload that parses as valid structured data and matches
neither the tab-delimited nor the bracketed-level shape is returned as
Formatted with content identical to the parsed structured value, with no
field extraction. -/
theorem c5_passthrough :
    ∀ (log : RawCloudWatchLog) (s : String) (v : Value),
      log.record = .str s →
      node.parse log = none → python.parse log = none →
      jsonParse s = some v →
      try_parse_cloudwatch_log log = .ok (.Formatted v) := by
  intro log s v hrec h1 h2 h3
  simp [try_parse_cloudwatch_log, h1, h2, dotnet.parse, hrec, h3]

/-- Witness for C5 at the repository's structured-payload test record. -/
theorem c5_passthrough_witness :
    try_parse_cloudwatch_log ⟨"2020-11-18T23:52:30.128Z", "function",
      .str "\x7b \"statusCode\": 200, \"body\": \"DotNet\" \x7d"⟩ =
      .ok (.Formatted
        (.obj [("statusCode", .num 200), ("body", .str "DotNet")])) :=
  c5_passthrough ⟨"2020-11-18T23:52:30.128Z", "function",
      .str "\x7b \"statusCode\": 200, \"body\": \"DotNet\" \x7d"⟩
    "\x7b \"statusCode\": 200, \"body\": \"DotNet\" \x7d"
    (.obj [("statusCode", .num 200), ("body", .str "DotNet")])
    rfl rfl rfl rfl

/-- C6 counterexample: no payload matches both the BracketedLevel shape
and the JsonPassthrough shape, because a BracketedLevel match forces the
payload to begin with a bracketed valid level token ("[INFO]", "[WARN]"
or "[ERROR]"), and such text is not valid structured data (after the
opening bracket the letter of the level token starts no value of the
grammar).  This refutes the claim as stated: the set of payloads it
quantifies over is empty. -/
theorem c6_counterexample :
    ¬ ∃ (log : RawCloudWatchLog) (s : String) (r : Log) (v : Value),
      log.record = .str s ∧ python.parse log = some r ∧
        jsonParse s = some v := by
  rintro ⟨log, s, r, v, hrec, hpy, hjs⟩
  have hcore : python.parseCore s.data = some r := by
    unfold python.parse at hpy
    rw [hrec] at hpy
    exact hpy
  obtain ⟨tok, rest, lvl, hcs, hlv⟩ := python_parseCore_some_inv hcore
  have htok : tok = (LogLevel.serialize lvl).data :=
    congrArg String.data (tryFrom_ok hlv)
  have hnone : jsonParse s = none := by
    unfold jsonParse
    cases lvl with
    | Info =>
      have h2 : s.data = '[' :: 'I' :: ("NFO".data ++ ']' :: rest) := by
        rw [hcs, htok]; exact rfl
      rw [h2, parseValue_bracket_I]
    | Warn =>
      have h2 : s.data = '[' :: 'W' :: ("ARN".data ++ ']' :: rest) := by
        rw [hcs, htok]; exact rfl
      rw [h2, parseValue_bracket_W]
    | Error =>
      have h2 : s.data = '[' :: 'E' :: ("RROR".data ++ ']' :: rest) := by
        rw [hcs, htok]; exact rfl
      rw [h2, parseValue_bracket_E]
  rw [hnone] at hjs
  exact Option.noConfusion hjs

/-- C6 amended: for some payload matching the BracketedLevel shape whose
message is syntactically valid structured data (the message alone would be
accepted by JsonPassthrough), the dispatcher resolves it via
BracketedLevel, producing Unformatted rather than Formatted. -/
theorem c6_order_load_bearing :
    python.parse ⟨"", "function",
      .str "[INFO]\t2020-11-18T23:52:30.128Z 6e48723a\ttrue"⟩ =
      some (.Unformatted ⟨some "2020-11-18T23:52:30.128Z", some "6e48723a",
        some .Info, .str "true"⟩) ∧
    jsonParse "true" = some (.bool true) ∧
    try_parse_cloudwatch_log ⟨"", "function",
      .str "[INFO]\t2020-11-18T23:52:30.128Z 6e48723a\ttrue"⟩ =
      .ok (.Unformatted ⟨some "2020-11-18T23:52:30.128Z", some "6e48723a",
        some .Info, .str "true"⟩) :=
  ⟨rfl, rfl, rfl⟩

/-- C7: a record whose type tag is not "function" is excluded before
dispatch and produces no output entry, leaving the rest of the batch
unchanged. -/
theorem c7_non_function_excluded :
    ∀ (pre post : List RawCloudWatchLog) (log : RawCloudWatchLog),
      log.type ≠ "function" →
      parse (pre ++ log :: post) = parse (pre ++ post) := by
  intro pre post log h
  apply parse_middle_none
  simp [h]

/-- Witness for C7 at a record with the platform origin tag. -/
theorem c7_non_function_excluded_witness :
    parse [⟨"", "platform.start", .str "hello"⟩] = [] :=
  c7_non_function_excluded [] [] ⟨"", "platform.start", .str "hello"⟩
    (by decide)

/-- C8: two payloads matching the bracketed-level shape with a valid level
token that differ only in the run of whitespace between the timestamp and
the correlation id extract the same StructuredLog (and both extract
exactly the split fields). -/
theorem c8_ws_invariance :
    ∀ (time typ : String) (tok ts ws1 ws2 guid msg : List Char)
      (lvl : LogLevel),
      LogLevel.tryFrom (String.mk tok) = .ok lvl →
      ts ≠ [] → (∀ c ∈ ts, isWs c = false) →
      ws1 ≠ [] → (∀ c ∈ ws1, isWs c = true) →
      ws2 ≠ [] → (∀ c ∈ ws2, isWs c = true) →
      guid ≠ [] → (∀ c, guid.head? = some c → isWs c = false) →
      '\t' ∉ guid →
      python.parse ⟨time, typ, .str (String.mk
          ('[' :: tok ++ ']' :: '\t' :: ts ++ ws1 ++ guid ++ '\t' :: msg))⟩ =
        python.parse ⟨time, typ, .str (String.mk
          ('[' :: tok ++ ']' :: '\t' :: ts ++ ws2 ++ guid ++ '\t' :: msg))⟩ ∧
      python.parse ⟨time, typ, .str (String.mk
          ('[' :: tok ++ ']' :: '\t' :: ts ++ ws1 ++ guid ++ '\t' :: msg))⟩ =
        some (.Unformatted ⟨some (String.mk ts), some (String.mk guid),
          some lvl, .str (String.mk msg)⟩) := by
  intro time typ tok ts ws1 ws2 guid msg lvl hlvl htsne hts hws1ne hws1
    hws2ne hws2 hgne hghd hgtab
  have h1 := python_parseCore_shape tok ts ws1 guid msg lvl hlvl htsne hts
    hws1ne hws1 hgne hghd hgtab
  have h2 := python_parseCore_shape tok ts ws2 guid msg lvl hlvl htsne hts
    hws2ne hws2 hgne hghd hgtab
  constructor
  · show python.parseCore
        ('[' :: tok ++ ']' :: '\t' :: ts ++ ws1 ++ guid ++ '\t' :: msg) =
      python.parseCore
        ('[' :: tok ++ ']' :: '\t' :: ts ++ ws2 ++ guid ++ '\t' :: msg)
    rw [h1, h2]
  · exact h1

/-- Witness for C8: a single space against a three-space run. -/
theorem c8_ws_invariance_witness :
    python.parse ⟨"", "function", .str (String.mk
        ('[' :: "INFO".data ++ ']' :: '\t' :: "2020".data ++ [' '] ++
          "6e48".data ++ '\t' :: "hi".data))⟩ =
      python.parse ⟨"", "function", .str (String.mk
        ('[' :: "INFO".data ++ ']' :: '\t' :: "2020".data ++
          [' ', ' ', ' '] ++ "6e48".data ++ '\t' :: "hi".data))⟩ ∧
    python.parse ⟨"", "function", .str (String.mk
        ('[' :: "INFO".data ++ ']' :: '\t' :: "2020".data ++ [' '] ++
          "6e48".data ++ '\t' :: "hi".data))⟩ =
      some (.Unformatted ⟨some (String.mk "2020".data),
        some (String.mk "6e48".data), some .Info,
        .str (String.mk "hi".data)⟩) :=
  c8_ws_invariance "" "function" "INFO".data "2020".data [' ']
    [' ', ' ', ' '] "6e48".data "hi".data .Info rfl (by decide) (by decide)
    (by decide) (by decide) (by decide) (by decide) (by decide)
    (by decide) (by decide)

/-- C9: the batch output has exactly one LogResult per successfully
recognized input record (one per eligible record whose processing
succeeds), in the relative order of the corresponding input records: the
batch stage is the order-preserving filterMap of per-record processing. -/
theorem c9_order_preserved :
    ∀ logs : List RawCloudWatchLog,
      parse logs = logs.filterMap (fun log =>
        if log.type = "function" then (processRecord log).toOption
        else none) :=
  parse_eq_filterMap

/-- C10: level parsing and serialization round-trip in both directions. -/
theorem c10_roundtrip :
    (∀ (t : String) (l : LogLevel),
      LogLevel.tryFrom t = .ok l → LogLevel.serialize l = t) ∧
    (∀ l : LogLevel, LogLevel.tryFrom (LogLevel.serialize l) = .ok l) := by
  constructor
  · intro t l h
    exact (tryFrom_ok h).symm
  · exact tryFrom_serialize

/-- Witness for C10 at the token "WARN". -/
theorem c10_roundtrip_witness :
    LogLevel.serialize .Warn = "WARN" ∧
    LogLevel.tryFrom (LogLevel.serialize .Error) = .ok .Error :=
  ⟨c10_roundtrip.1 "WARN" .Warn rfl, c10_roundtrip.2 .Error⟩

end CwParser
